import Mathlib

/-!
The submission-intake handlers of illumibot-waitlist (`server.js`).

A shallow embedding of the two JSON endpoints of `src/server.js`

* `app.post('/api/waitlist', ...)`  (lines 301-328) and
* `app.post('/api/contact', ...)`   (lines 331-370),

together with `isValidEmail` (lines 55-58), followed by the properties that the
specification states about them.

Modelling decisions, all of them visible in the definitions below:

* JavaScript values are the values `express.json()` / `JSON.parse` can produce, plus
  `undefined` (what destructuring yields for an absent property).  A number is a double
  as `JSON.parse` delivers it: a zero, an infinity (the value of the text `1e999`), or a
  finite non-zero number given by the decimal digits and the exponent that
  `Number::toString` prints it with.  A string is its sequence of Unicode scalar values
  (the pattern of `isValidEmail` has no class that separates the two halves of a
  surrogate pair, so matching on UTF-16 code units gives the same verdict).
* The file `data/waitlist.json` is represented by what `JSON.parse(fs.readFileSync(..))`
  makes of it: either the call throws, or it yields a value.  After
  `fs.writeFileSync(DATA_FILE, JSON.stringify(entries, null, 2))` the file holds what
  `JSON.parse` makes of the text that `JSON.stringify` produced (`jsonRoundTrip`), which
  is not always the array that was in memory.  `fs.writeFileSync` itself is taken to
  succeed.
* The outside world a handler talks to (clock, Firestore, SMTP relay) is an explicit
  `Env` argument; everything a handler does to the outside world is recorded, in
  program order, in a list of `Effect`s.
* A call of Firestore's `add` either throws synchronously (the client refuses the
  document) or returns a promise, which resolves or rejects.
* A handler is modelled from the point where the rate limiter has let the request
  through and `req.body` is an object.
-/

namespace Illumibot

/-! ## JavaScript values -/

/-- A JavaScript number as `JSON.parse` can deliver it (never `NaN`).  A finite
non-zero number is given the way `Number::toString` describes it: `digits` is the
integer `s` written with the fewest digits `k` (so it is not 0 and does not end in 0)
and `point` is the integer `n` such that the value is `s × 10^(n - k)`.  For example
`1.5` is `finite false 15 1` and `1.5e21` is `finite false 15 22`. -/
inductive JsNumber where
  | zero (negative : Bool) : JsNumber
  | finite (negative : Bool) (digits : Nat) (point : Int) : JsNumber
  | infinity (negative : Bool) : JsNumber

/-- JavaScript values that can reach the handlers: `undefined` and the JSON values. -/
inductive Value where
  | undefined : Value
  | null : Value
  | bool (b : Bool) : Value
  | num (x : JsNumber) : Value
  | str (s : String) : Value
  | arr (xs : List Value) : Value
  | obj (props : List (String × Value)) : Value

/-- An exception thrown by the JavaScript code (a `TypeError`, the `SyntaxError` of
`JSON.parse`, an error of a library); the handlers never inspect it. -/
inductive Thrown where
  | error : Thrown
  deriving DecidableEq

/-- Result of an expression that may throw. -/
inductive Completion (α : Type) where
  | normal (a : α) : Completion α
  | throw (e : Thrown) : Completion α
  deriving DecidableEq

/-- ECMAScript `ToBoolean`; `!x` in the source is `!truthy x`.  Of the numbers only the
zeros are falsy (`NaN` does not occur). -/
def truthy : Value → Bool
  | .undefined => false
  | .null => false
  | .bool b => b
  | .num (.zero _) => false
  | .num (.finite _ _ _) => true
  | .num (.infinity _) => true
  | .str s => s != ""
  | .arr _ => true
  | .obj _ => true

/-- Value of the first property named `key` in a list of properties, `undefined` when
there is none. -/
def lookup : List (String × Value) → String → Value
  | [], _ => .undefined
  | (k, v) :: rest, key => if k == key then v else lookup rest key

/-- Property read `o[key]`: own properties of an object; anything else has none of the
properties the handlers read. -/
def Value.prop : Value → String → Value
  | .obj props, key => lookup props key
  | _, _ => .undefined

/-- Whether `typeof v === 'string'`. -/
def Value.isString : Value → Bool
  | .str _ => true
  | _ => false

/-- Whether `v === undefined`. -/
def Value.isUndefined : Value → Bool
  | .undefined => true
  | _ => false

/-- Whether `v` is `undefined` or `null` (the elements `Array.prototype.join` prints as
the empty string). -/
def Value.isNullish : Value → Bool
  | .undefined => true
  | .null => true
  | _ => false

/-- Decimal digits of a natural number, most significant first. -/
def decimalDigits (s : Nat) : List Char :=
  Nat.toDigits 10 s

/-- ECMAScript `Number::toString` (radix 10) for the positive finite number with digits
`s` and exponent `n`, steps 7 to 11 of the algorithm: plain digits with trailing zeros
when `k ≤ n ≤ 21`, digits with a decimal point when `0 < n ≤ 21`, `0.` and leading
zeros when `-6 < n ≤ 0`, exponential notation otherwise. -/
def positiveText (s : Nat) (n : Int) : List Char :=
  let ds := decimalDigits s
  let k : Int := ds.length
  if k ≤ n ∧ n ≤ 21 then ds ++ List.replicate (n - k).toNat '0'
  else if 0 < n ∧ n ≤ 21 then ds.take n.toNat ++ '.' :: ds.drop n.toNat
  else if -6 < n ∧ n ≤ 0 then '0' :: '.' :: (List.replicate (-n).toNat '0' ++ ds)
  else
    (if ds.length = 1 then ds else ds.take 1 ++ '.' :: ds.drop 1) ++
      'e' :: (if n - 1 < 0 then '-' else '+') :: decimalDigits (n - 1).natAbs

/-- ECMAScript `Number::toString` (radix 10). -/
def JsNumber.text : JsNumber → List Char
  | .zero _ => ['0']
  | .finite negative s n => if negative then '-' :: positiveText s n else positiveText s n
  | .infinity negative => if negative then "-Infinity".toList else "Infinity".toList

/-- One step of `Array.prototype.join(",")`: the text of the first element followed,
when more elements remain, by a comma and the text of the rest. -/
def joinStep (first : Completion String) (more : Bool) (rest : Completion String) :
    Completion String :=
  match first, more, rest with
  | .throw e, _, _ => .throw e
  | .normal s, false, _ => .normal s
  | .normal _, true, .throw e => .throw e
  | .normal s, true, .normal t => .normal (s ++ "," ++ t)

mutual
/-- ECMAScript `ToString`, which `RegExp.prototype.test` applies to its argument.
An array prints as its elements joined by commas.  A plain object prints as
`[object Object]`, unless it has an own property `toString`: a JSON value is never
callable, so `OrdinaryToPrimitive` skips it, `Object.prototype.valueOf` returns the
object itself, and a `TypeError` is thrown. -/
def toStr : Value → Completion String
  | .undefined => .normal "undefined"
  | .null => .normal "null"
  | .bool b => .normal (if b then "true" else "false")
  | .num x => .normal (String.mk x.text)
  | .str s => .normal s
  | .arr xs => joinElems xs
  | .obj props =>
      if props.any (fun kv => kv.1 == "toString") then .throw .error
      else .normal "[object Object]"
termination_by structural v => v
/-- Source-level `Array.prototype.join(",")` on the elements of an array. -/
def joinElems : List Value → Completion String
  | [] => .normal ""
  | x :: rest =>
      joinStep (if x.isNullish then .normal "" else toStr x) (!rest.isEmpty) (joinElems rest)
termination_by structural xs => xs
end

/-- What `JSON.parse(JSON.stringify(x))` gives for a number `x`: `JSON.stringify` writes
a non-finite number as `null` and both zeros as `0`; a finite number is written with
`Number::toString` and read back as the same double. -/
def JsNumber.roundTrip : JsNumber → Value
  | .zero _ => .num (.zero false)
  | .finite negative s n => .num (.finite negative s n)
  | .infinity _ => .null

mutual
/-- What `JSON.parse(JSON.stringify(v))` gives: the value that is in the file after `v`
has been written to it.  A property whose value is `undefined` is left out, an array
element that is `undefined` is written as `null`; no value here has a callable
`toJSON`. -/
def jsonRoundTrip : Value → Value
  | .undefined => .undefined
  | .null => .null
  | .bool b => .bool b
  | .num x => x.roundTrip
  | .str s => .str s
  | .arr xs => .arr (roundTripElems xs)
  | .obj props => .obj (roundTripProps props)
termination_by structural v => v
/-- Elements of an array after `JSON.stringify` and `JSON.parse`. -/
def roundTripElems : List Value → List Value
  | [] => []
  | x :: rest => (if x.isUndefined then .null else jsonRoundTrip x) :: roundTripElems rest
termination_by structural xs => xs
/-- Properties of an object after `JSON.stringify` and `JSON.parse`. -/
def roundTripProps : List (String × Value) → List (String × Value)
  | [] => []
  | (k, v) :: rest =>
      if v.isUndefined then roundTripProps rest else (k, jsonRoundTrip v) :: roundTripProps rest
termination_by structural ps => ps
end

/-! ## Regular expressions -/

/-- Regular expressions over characters, with character classes given by a predicate. -/
inductive Regex where
  | never : Regex
  | empty : Regex
  | cls (p : Char → Bool) : Regex
  | cat (r s : Regex) : Regex
  | alt (r s : Regex) : Regex
  | star (r : Regex) : Regex

namespace Regex

/-- The quantifier `r+`. -/
def plus (r : Regex) : Regex := cat r (star r)

/-- A literal character. -/
def lit (c : Char) : Regex := cls (fun x => x.toNat == c.toNat)

/-- Whether `r` accepts the empty string. -/
def nullable : Regex → Bool
  | never => false
  | empty => true
  | cls _ => false
  | cat r s => nullable r && nullable s
  | alt r s => nullable r || nullable s
  | star _ => true

/-- What remains of `r` after reading the character `c`. -/
def after (c : Char) : Regex → Regex
  | never => never
  | empty => never
  | cls p => if p c then empty else never
  | cat r s => if nullable r then alt (cat (after c r) s) (after c s) else cat (after c r) s
  | alt r s => alt (after c r) (after c s)
  | star r => cat (after c r) (star r)

/-- The verdict of `/^r$/.test(s)`: both anchors are present and the `m` flag is not, so
the test succeeds exactly when the whole input belongs to the language of `r`. -/
def test (r : Regex) (s : List Char) : Bool :=
  nullable (s.foldl (fun q c => after c q) r)

/-- The language of a regular expression. -/
inductive Matches : Regex → List Char → Prop
  | empty : Matches .empty []
  | cls {p : Char → Bool} {c : Char} : p c = true → Matches (.cls p) [c]
  | cat {r s : Regex} {u v : List Char} :
      Matches r u → Matches s v → Matches (.cat r s) (u ++ v)
  | altLeft {r s : Regex} {u : List Char} : Matches r u → Matches (.alt r s) u
  | altRight {r s : Regex} {u : List Char} : Matches s u → Matches (.alt r s) u
  | starNil {r : Regex} : Matches (.star r) []
  | starMore {r : Regex} {u v : List Char} :
      Matches r u → Matches (.star r) v → Matches (.star r) (u ++ v)

end Regex

/-- The class `\s` of ECMAScript regular expressions: WhiteSpace and LineTerminator
code points (TAB, LF, VT, FF, CR, SPACE, NBSP, OGHAM SPACE MARK, U+2000..U+200A,
LS, PS, NNBSP, MMSP, IDEOGRAPHIC SPACE, BOM). -/
def isSpace (c : Char) : Bool :=
  let n := c.toNat
  (9 ≤ n && n ≤ 13) || n == 32 || n == 160 || n == 5760 || (8192 ≤ n && n ≤ 8202) ||
    n == 8232 || n == 8233 || n == 8239 || n == 8287 || n == 12288 || n == 65279

/-- The class `[^\s@]`. -/
def notSpaceNorAt (c : Char) : Bool :=
  !(isSpace c || c.toNat == 64)

/-- The body of the pattern in `isValidEmail`: `[^\s@]+@[^\s@]+\.[^\s@]+`. -/
def emailRegex : Regex :=
  .cat (.plus (.cls notSpaceNorAt))
    (.cat (.lit '@')
      (.cat (.plus (.cls notSpaceNorAt))
        (.cat (.lit '.') (.plus (.cls notSpaceNorAt)))))

/-- Source `isValidEmail(email)`: `/^[^\s@]+@[^\s@]+\.[^\s@]+$/.test(email)`.
`test` first converts its argument with `ToString`, which may throw. -/
def isValidEmail (email : Value) : Completion Bool :=
  match toStr email with
  | .normal s => .normal (emailRegex.test s.toList)
  | .throw e => .throw e

/-! ## The outside world -/

/-- The file `data/waitlist.json`, seen through `JSON.parse(fs.readFileSync(DATA_FILE))`:
either reading or parsing throws, or a value comes out. -/
inductive FileContent where
  | unparsable : FileContent
  | parsed (v : Value) : FileContent

/-- The file created at startup (line 24): `fs.writeFileSync(DATA_FILE, '[]')`. -/
def initialFile : FileContent := .parsed (.arr [])

/-- The Firestore mirror during one request.  `disabled`: `db` is `null` (line 15, which
happens only when `admin.initializeApp()` threw).  Otherwise a call of `add(doc)` either
returns a promise that `resolves` or `rejects`, or `throws` synchronously because the
client refuses the document (as the Firestore client does for a property with an empty
name). -/
inductive Mirror where
  | disabled : Mirror
  | resolves : Mirror
  | rejects : Mirror
  | throws : Mirror
  deriving DecidableEq

/-- What the environment answers during one request. -/
structure Env where
  /-- Value of `new Date().toISOString()`. -/
  now : String
  /-- State of the Firestore mirror. -/
  mirror : Mirror
  /-- Whether the promise of `transporter.sendMail` resolves. -/
  mailOk : Bool

/-- Interactions of a handler with the outside world. -/
inductive Effect where
  /-- Call `fs.readFileSync(DATA_FILE, 'utf8')`. -/
  | readFile : Effect
  /-- Call `fs.writeFileSync(DATA_FILE, JSON.stringify(entries, null, 2))`. -/
  | writeFile (entries : Value) : Effect
  /-- Call `db.collection('waitlist').add(entry)`. -/
  | mirrorWaitlist (entry : Value) : Effect
  /-- Call `db.collection('contact_submissions').add({email, submitted_at})`. -/
  | mirrorContact (email : Value) : Effect
  /-- Call `transporter.sendMail({..., to: email, ...})`. -/
  | sendMail (recipient : Value) : Effect
  /-- Call `console.error(label, err)`. -/
  | consoleError (label : String) : Effect

/-- Whether an effect is a call to `fs.writeFileSync`. -/
def Effect.isFileWrite : Effect → Bool
  | .writeFile _ => true
  | _ => false

/-- Whether an effect is a Firestore `add`. -/
def Effect.isMirrorWrite : Effect → Bool
  | .mirrorWaitlist _ => true
  | .mirrorContact _ => true
  | _ => false

/-- Whether an effect is a call to `transporter.sendMail`. -/
def Effect.isMailSend : Effect → Bool
  | .sendMail _ => true
  | _ => false

/-- An HTTP response: status code and JSON body. -/
structure Response where
  status : Nat
  body : Value

/-- The response `res.status(code).json({ error: msg })`. -/
def errorResponse (code : Nat) (msg : String) : Response :=
  ⟨code, .obj [("error", .str msg)]⟩

/-- The response `res.json({ success: true })` (status 200). -/
def successResponse : Response :=
  ⟨200, .obj [("success", .bool true)]⟩

/-- Everything observable after a handler has run. -/
structure Outcome where
  /-- The HTTP response sent. -/
  response : Response
  /-- The content of `data/waitlist.json` afterwards. -/
  file : FileContent
  /-- The effects performed, in program order. -/
  trace : List Effect

/-! ## `POST /api/waitlist` -/

/-- The properties that `const { company, firstName, lastName, email, phone, notes } =
req.body` reads; a property that is absent from the body reads as `undefined`. -/
structure WaitlistBody where
  company : Value
  firstName : Value
  lastName : Value
  email : Value
  phone : Value
  notes : Value

/-- The expression `notes || ''`. -/
def notesOrEmpty (notes : Value) : Value :=
  if truthy notes then notes else .str ""

/-- The object literal of lines 310-314. -/
def buildEntry (now : String) (b : WaitlistBody) : Value :=
  .obj [("company", b.company), ("firstName", b.firstName), ("lastName", b.lastName),
    ("email", b.email), ("phone", b.phone), ("notes", notesOrEmpty b.notes),
    ("timestamp", .str now)]

/-- The condition `!company || !firstName || !lastName || !email || !phone`. -/
def missingRequired (b : WaitlistBody) : Bool :=
  !truthy b.company || !truthy b.firstName || !truthy b.lastName || !truthy b.email ||
    !truthy b.phone

/-- The `catch (err)` block of the waitlist handler (lines 324-327), entered with the
effects `done` already performed and the file as it is at that point. -/
def waitlistCatch (file : FileContent) (done : List Effect) : Outcome :=
  ⟨errorResponse 500 "Server error. Please try again.", file,
    done ++ [.consoleError "Waitlist error:"]⟩

/-- Lines 319-323, reached after the file has been written (its content is `written`,
the effects so far are `done`): `if (db) { db.collection('waitlist').add(entry).catch(e
=> console.error('Firestore write error:', e)); } res.json({ success: true });`.
The promise is not awaited and its rejection handler only logs; but the call itself
stands unguarded inside the outer `try`, so when `add` throws synchronously the outer
`catch` answers 500, after the write. -/
def waitlistMirrorAndRespond (m : Mirror) (entry : Value) (written : FileContent)
    (done : List Effect) : Outcome :=
  match m with
  | .disabled => ⟨successResponse, written, done⟩
  | .resolves => ⟨successResponse, written, done ++ [.mirrorWaitlist entry]⟩
  | .rejects =>
      ⟨successResponse, written,
        done ++ [.mirrorWaitlist entry, .consoleError "Firestore write error:"]⟩
  | .throws => waitlistCatch written (done ++ [.mirrorWaitlist entry])

/-- The handler of `app.post('/api/waitlist', formLimiter, (req, res) => ...)`,
lines 301-328. -/
def postWaitlist (env : Env) (b : WaitlistBody) (file : FileContent) : Outcome :=
  if missingRequired b then
    ⟨errorResponse 400 "All required fields must be filled.", file, []⟩
  else
    match isValidEmail b.email with
    | .throw _ => waitlistCatch file []
    | .normal false => ⟨errorResponse 400 "Invalid email address.", file, []⟩
    | .normal true =>
        let entry := buildEntry env.now b
        -- const entries = JSON.parse(fs.readFileSync(DATA_FILE, 'utf8'));
        match file with
        | .unparsable => waitlistCatch file [.readFile]
        | .parsed (.arr entries) =>
            -- entries.push(entry); fs.writeFileSync(DATA_FILE, JSON.stringify(entries, null, 2));
            let entries' := Value.arr (entries ++ [entry])
            waitlistMirrorAndRespond env.mirror entry (.parsed (jsonRoundTrip entries'))
              [.readFile, .writeFile entries']
        | .parsed _ =>
            -- entries.push is not a function: TypeError
            waitlistCatch file [.readFile]

/-- Handling a sequence of waitlist requests one after the other (the handler is
synchronous, so one invocation is finished before the next one starts); the result is
the final content of the file. -/
def runWaitlist (file : FileContent) : List (Env × WaitlistBody) → FileContent
  | [] => file
  | (env, b) :: rest => runWaitlist (postWaitlist env b file).file rest

/-! ## `POST /api/contact` -/

/-- The property that `const { email } = req.body` reads. -/
structure ContactBody where
  email : Value

/-- The `catch (err)` block of the contact handler. -/
def contactCatch (file : FileContent) (done : List Effect) : Outcome :=
  ⟨errorResponse 500 "Failed to send email. Please try again.", file,
    done ++ [.consoleError "Email error:"]⟩

/-- Lines 355-364: `if (db) { try { await db.collection('contact_submissions').add(..) }
catch (fbErr) { console.error('Firestore contact log error:', fbErr); } }`.  Here the
call has a `try`/`catch` of its own, which takes a synchronous throw and a rejection
alike. -/
def mirrorContactEffects (m : Mirror) (email : Value) : List Effect :=
  match m with
  | .disabled => []
  | .resolves => [.mirrorContact email]
  | .rejects => [.mirrorContact email, .consoleError "Firestore contact log error:"]
  | .throws => [.mirrorContact email, .consoleError "Firestore contact log error:"]

/-- The handler of `app.post('/api/contact', emailLimiter, async (req, res) => ...)`,
lines 331-370.  It never touches the file. -/
def postContact (env : Env) (b : ContactBody) (file : FileContent) : Outcome :=
  -- if (!email || !isValidEmail(email))
  if !truthy b.email then
    ⟨errorResponse 400 "Please provide a valid email address.", file, []⟩
  else
    match isValidEmail b.email with
    | .throw _ => contactCatch file []
    | .normal false => ⟨errorResponse 400 "Please provide a valid email address.", file, []⟩
    | .normal true =>
        -- await transporter.sendMail({ ..., to: email, ... })
        if env.mailOk then
          ⟨successResponse, file, [.sendMail b.email] ++ mirrorContactEffects env.mirror b.email⟩
        else
          contactCatch file [.sendMail b.email]

/-! ## The email pattern as the specification words it -/

/-- A character that is neither a space character (the class `\s`) nor `@`. -/
def NonSpaceNonAt (c : Char) : Prop :=
  isSpace c = false ∧ c ≠ '@'

/-- The email-format rule in the words of the specification (section 4.1): the whole
string is one or more non-space non-@ characters, then `@`, then one or more non-space
non-@ characters, then `.`, then one or more non-space non-@ characters. -/
def EmailPattern (s : List Char) : Prop :=
  ∃ a b c : List Char,
    s = a ++ '@' :: (b ++ '.' :: c) ∧ a ≠ [] ∧ b ≠ [] ∧ c ≠ [] ∧
      (∀ x ∈ a, NonSpaceNonAt x) ∧ (∀ x ∈ b, NonSpaceNonAt x) ∧ (∀ x ∈ c, NonSpaceNonAt x)

/-! ## Validation and the stored records -/

/-- A waitlist body that passes both checks of the handler (lines 304 and 307): the five
required properties are truthy and `isValidEmail(email)` returns `true`. -/
def Accepted (b : WaitlistBody) : Prop :=
  missingRequired b = false ∧ isValidEmail b.email = .normal true

/-- A stored record passes the validator: its five required properties are present and
non-empty (truthy) and its email is accepted by `isValidEmail`. -/
def EntryValid (e : Value) : Prop :=
  truthy (e.prop "company") = true ∧ truthy (e.prop "firstName") = true ∧
    truthy (e.prop "lastName") = true ∧ truthy (e.prop "email") = true ∧
    truthy (e.prop "phone") = true ∧ isValidEmail (e.prop "email") = .normal true

/-- The five required properties of a body, in the order of the destructuring. -/
def WaitlistBody.required (b : WaitlistBody) : List Value :=
  [b.company, b.firstName, b.lastName, b.email, b.phone]

/-- The five required properties of a stored record. -/
def requiredProps (e : Value) : List Value :=
  [e.prop "company", e.prop "firstName", e.prop "lastName", e.prop "email", e.prop "phone"]

/-- A record of the data model: an object all of whose properties are strings. -/
def Value.isRecord : Value → Bool
  | .obj props => props.all (fun kv => kv.2.isString)
  | _ => false

/-- A value that is a string or absent (`undefined`). -/
def Value.isStringOrAbsent : Value → Bool
  | .str _ => true
  | .undefined => true
  | _ => false

/-- A body typed as the data model has it: the five required properties are strings and
notes is a string or absent. -/
def WaitlistBody.stringTyped (b : WaitlistBody) : Bool :=
  b.required.all Value.isString && b.notes.isStringOrAbsent

/-- The body `{company, firstName, lastName, email, phone}` made of the given strings,
with `notes` when given. -/
def stringBody (company firstName lastName email phone : String) (notes : Option String) :
    WaitlistBody :=
  ⟨.str company, .str firstName, .str lastName, .str email, .str phone,
    match notes with
    | none => .undefined
    | some s => .str s⟩

/-- What an element of the stored array becomes at the next write. -/
def storedAgain (x : Value) : Value :=
  if x.isUndefined then .null else jsonRoundTrip x

/-- A stored record whose five required properties are non-empty strings, the email
being one that `isValidEmail` accepts. -/
def StringEntryValid (e : Value) : Prop :=
  ∃ c f l m p : String,
    e.prop "company" = .str c ∧ e.prop "firstName" = .str f ∧ e.prop "lastName" = .str l ∧
      e.prop "email" = .str m ∧ e.prop "phone" = .str p ∧
      c ≠ "" ∧ f ≠ "" ∧ l ≠ "" ∧ m ≠ "" ∧ p ≠ "" ∧ isValidEmail (.str m) = .normal true

/-- A stored record carries the fields of a submission typed as the data model has it:
the five required properties as submitted, and for notes the submitted string, or the
empty string when notes was absent. -/
def Carries (record : Value) (b : WaitlistBody) : Prop :=
  b.stringTyped = true →
    requiredProps record = b.required ∧
      (b.notes = .undefined → record.prop "notes" = .str "") ∧
      (∀ s, b.notes = .str s → record.prop "notes" = .str s)

/-! ## Sample inputs -/

/-- An environment in which the Firestore write is rejected and the mail relay works. -/
def sampleEnv : Env := ⟨"2024-05-01T12:00:00.000Z", .rejects, true⟩

/-- An environment in which the mail relay fails. -/
def mailDownEnv : Env := ⟨"2024-05-01T12:00:00.000Z", .resolves, false⟩

/-- An environment without Firestore (`db` is `null`). -/
def noMirrorEnv : Env := ⟨"2024-05-01T12:00:00.000Z", .disabled, true⟩

/-- An environment in which Firestore's `add` throws synchronously. -/
def refusingMirrorEnv : Env := ⟨"2024-05-01T12:00:00.000Z", .throws, true⟩

/-- The example body of the specification (section 8); `notes` is absent. -/
def acmeBody : WaitlistBody :=
  ⟨.str "Acme", .str "Jo", .str "Lee", .str "jo@acme.com", .str "555-1234", .undefined⟩

/-- The example body with a note. -/
def acmeNotesBody : WaitlistBody :=
  ⟨.str "Acme", .str "Jo", .str "Lee", .str "jo@acme.com", .str "555-1234",
    .str "call after 5pm"⟩

/-- The example body with the phone number left empty and a malformed email. -/
def noPhoneBody : WaitlistBody :=
  ⟨.str "Acme", .str "Jo", .str "Lee", .str "not-an-email", .str "", .undefined⟩

/-- The example body with a malformed email. -/
def badEmailBody : WaitlistBody :=
  ⟨.str "Acme", .str "Jo", .str "Lee", .str "not-an-email", .str "555-1234", .undefined⟩

/-- A JSON body whose `email` is an array holding one string:
`{"company":"Acme","firstName":"Jo","lastName":"Lee","email":["jo@acme.com"],"phone":"555-1234"}`. -/
def arrayEmailBody : WaitlistBody :=
  ⟨.str "Acme", .str "Jo", .str "Lee", .arr [.str "jo@acme.com"], .str "555-1234", .undefined⟩

/-- The JSON body
`{"company":1e999,"firstName":"Jo","lastName":"Lee","email":"jo@acme.com","phone":"555-1234"}`:
`JSON.parse` reads `1e999` as `Infinity`. -/
def overflowCompanyBody : WaitlistBody :=
  ⟨.num (.infinity false), .str "Jo", .str "Lee", .str "jo@acme.com", .str "555-1234",
    .undefined⟩

/-- The JSON body
`{"company":"Acme","firstName":"Jo","lastName":"Lee","email":"jo@acme.com","phone":-1e999}`:
`JSON.parse` reads `-1e999` as `-Infinity`. -/
def overflowPhoneBody : WaitlistBody :=
  ⟨.str "Acme", .str "Jo", .str "Lee", .str "jo@acme.com", .num (.infinity true),
    .undefined⟩

/-- The JSON body
`{"company":"Acme","firstName":"Jo","lastName":1e999,"email":"jo@acme.com","phone":"555-1234"}`. -/
def overflowLastNameBody : WaitlistBody :=
  ⟨.str "Acme", .str "Jo", .num (.infinity false), .str "jo@acme.com", .str "555-1234",
    .undefined⟩

/-- The JSON body
`{"company":"Acme","firstName":"Jo","lastName":"Lee","email":"jo@acme.com","phone":"555-1234","notes":{"":1}}`,
whose notes the Firestore client refuses (a property with an empty name). -/
def emptyKeyNotesBody : WaitlistBody :=
  ⟨.str "Acme", .str "Jo", .str "Lee", .str "jo@acme.com", .str "555-1234",
    .obj [("", .num (.finite false 1 1))]⟩

/-! ## Correctness of the matcher -/

namespace Regex

theorem matches_nil_nullable {r : Regex} {s : List Char} (h : Matches r s) :
    s = [] → r.nullable = true := by
  induction h with
  | empty => intro _; rfl
  | cls _ => intro hs; cases hs
  | cat _ _ ih1 ih2 =>
      intro hs
      obtain ⟨hu, hv⟩ := List.append_eq_nil.mp hs
      simp [nullable, ih1 hu, ih2 hv]
  | altLeft _ ih => intro hs; simp [nullable, ih hs]
  | altRight _ ih => intro hs; simp [nullable, ih hs]
  | starNil => intro _; rfl
  | starMore _ _ _ _ => intro _; rfl

theorem nullable_matches_nil : ∀ r : Regex, r.nullable = true → Matches r []
  | never, h => by simp [nullable] at h
  | empty, _ => Matches.empty
  | cls _, h => by simp [nullable] at h
  | cat r s, h => by
      simp only [nullable, Bool.and_eq_true] at h
      exact Matches.cat (u := []) (v := []) (nullable_matches_nil r h.1)
        (nullable_matches_nil s h.2)
  | alt r s, h => by
      simp only [nullable, Bool.or_eq_true] at h
      rcases h with h | h
      · exact Matches.altLeft (nullable_matches_nil r h)
      · exact Matches.altRight (nullable_matches_nil s h)
  | star _, _ => Matches.starNil

theorem nullable_iff (r : Regex) : r.nullable = true ↔ Matches r [] :=
  ⟨nullable_matches_nil r, fun h => matches_nil_nullable h rfl⟩

theorem matches_cat_iff {r s : Regex} {w : List Char} :
    Matches (cat r s) w ↔ ∃ u v, w = u ++ v ∧ Matches r u ∧ Matches s v := by
  constructor
  · intro h
    cases h with
    | cat h1 h2 => exact ⟨_, _, rfl, h1, h2⟩
  · rintro ⟨u, v, rfl, h1, h2⟩
    exact Matches.cat h1 h2

theorem matches_alt_iff {r s : Regex} {w : List Char} :
    Matches (alt r s) w ↔ Matches r w ∨ Matches s w := by
  constructor
  · intro h
    cases h with
    | altLeft h => exact Or.inl h
    | altRight h => exact Or.inr h
  · rintro (h | h)
    · exact Matches.altLeft h
    · exact Matches.altRight h

theorem after_sound (c : Char) : ∀ (r : Regex) (s : List Char),
    Matches (after c r) s → Matches r (c :: s)
  | never, _, h => by cases h
  | empty, _, h => by cases h
  | cls p, s, h => by
      by_cases hp : p c = true
      · simp only [after, hp, if_true] at h
        cases h
        exact Matches.cls hp
      · simp only [after, hp] at h
        cases h
  | cat r t, s, h => by
      by_cases hn : r.nullable = true
      · simp only [after, hn, if_true] at h
        rcases matches_alt_iff.mp h with h | h
        · obtain ⟨u, v, rfl, h1, h2⟩ := matches_cat_iff.mp h
          exact Matches.cat (u := c :: u) (after_sound c r u h1) h2
        · exact Matches.cat (u := []) (nullable_matches_nil r hn) (after_sound c t s h)
      · simp only [after, hn] at h
        obtain ⟨u, v, rfl, h1, h2⟩ := matches_cat_iff.mp h
        exact Matches.cat (u := c :: u) (after_sound c r u h1) h2
  | alt r t, s, h => by
      simp only [after] at h
      rcases matches_alt_iff.mp h with h | h
      · exact Matches.altLeft (after_sound c r s h)
      · exact Matches.altRight (after_sound c t s h)
  | star r, s, h => by
      simp only [after] at h
      obtain ⟨u, v, rfl, h1, h2⟩ := matches_cat_iff.mp h
      exact Matches.starMore (u := c :: u) (after_sound c r u h1) h2

theorem after_complete (c : Char) {r : Regex} {w : List Char} (h : Matches r w) :
    ∀ s, w = c :: s → Matches (after c r) s := by
  induction h with
  | empty => intro s hs; cases hs
  | @cls p d hp =>
      intro s hs
      cases hs
      simp only [after, hp, if_true]
      exact Matches.empty
  | @cat r t u v h1 h2 ih1 ih2 =>
      intro s hs
      cases u with
      | nil =>
          have hn : r.nullable = true := matches_nil_nullable h1 rfl
          simp only [after, hn, if_true]
          exact Matches.altRight (ih2 s hs)
      | cons d u =>
          simp only [List.cons_append, List.cons.injEq] at hs
          obtain ⟨rfl, rfl⟩ := hs
          have hc : Matches (cat (after d r) t) (u ++ v) := Matches.cat (ih1 u rfl) h2
          by_cases hn : r.nullable = true
          · simp only [after, hn, if_true]
            exact Matches.altLeft hc
          · simp only [after, hn]
            exact hc
  | altLeft _ ih => intro s hs; exact Matches.altLeft (ih s hs)
  | altRight _ ih => intro s hs; exact Matches.altRight (ih s hs)
  | starNil => intro s hs; cases hs
  | @starMore r u v h1 h2 ih1 ih2 =>
      intro s hs
      cases u with
      | nil => exact ih2 s hs
      | cons d u =>
          simp only [List.cons_append, List.cons.injEq] at hs
          obtain ⟨rfl, rfl⟩ := hs
          exact Matches.cat (ih1 u rfl) h2

theorem matches_cons_iff (c : Char) (r : Regex) (s : List Char) :
    Matches r (c :: s) ↔ Matches (after c r) s :=
  ⟨fun h => after_complete c h s rfl, after_sound c r s⟩

/-- The matcher decides the language. -/
theorem test_iff : ∀ (s : List Char) (r : Regex), r.test s = true ↔ Matches r s
  | [], r => nullable_iff r
  | c :: s, r => by
      rw [matches_cons_iff]
      exact test_iff s (after c r)

theorem matches_cls_iff {p : Char → Bool} {w : List Char} :
    Matches (cls p) w ↔ ∃ c, w = [c] ∧ p c = true := by
  constructor
  · intro h
    cases h with
    | cls hp => exact ⟨_, rfl, hp⟩
  · rintro ⟨c, rfl, hp⟩
    exact Matches.cls hp

theorem matches_star_cls {p : Char → Bool} {R : Regex} {w : List Char} (h : Matches R w) :
    R = star (cls p) → ∀ x ∈ w, p x = true := by
  induction h with
  | empty => intro hR; cases hR
  | cls _ => intro hR; cases hR
  | cat _ _ _ _ => intro hR; cases hR
  | altLeft _ _ => intro hR; cases hR
  | altRight _ _ => intro hR; cases hR
  | starNil => intro _ x hx; cases hx
  | starMore h1 _ _ ih2 =>
      intro hR x hx
      cases hR
      obtain ⟨c, rfl, hp⟩ := matches_cls_iff.mp h1
      rcases List.mem_append.mp hx with hx | hx
      · rw [List.mem_singleton.mp hx]
        exact hp
      · exact ih2 rfl x hx

theorem star_cls_of_forall {p : Char → Bool} : ∀ w : List Char,
    (∀ x ∈ w, p x = true) → Matches (star (cls p)) w
  | [], _ => Matches.starNil
  | c :: w, h =>
      Matches.starMore (u := [c]) (Matches.cls (h c (List.mem_cons_self c w)))
        (star_cls_of_forall w (fun x hx => h x (List.mem_cons_of_mem c hx)))

/-- The language of `[p]+`: the non-empty strings all of whose characters are in the
class. -/
theorem matches_plus_cls_iff {p : Char → Bool} {w : List Char} :
    Matches (plus (cls p)) w ↔ w ≠ [] ∧ ∀ x ∈ w, p x = true := by
  constructor
  · intro h
    obtain ⟨u, v, rfl, h1, h2⟩ := matches_cat_iff.mp h
    obtain ⟨c, rfl, hp⟩ := matches_cls_iff.mp h1
    refine ⟨by simp, ?_⟩
    intro x hx
    rcases List.mem_append.mp hx with hx | hx
    · rw [List.mem_singleton.mp hx]
      exact hp
    · exact matches_star_cls h2 rfl x hx
  · rintro ⟨hne, hall⟩
    cases w with
    | nil => exact absurd rfl hne
    | cons c w =>
        exact Matches.cat (u := [c]) (Matches.cls (hall c (List.mem_cons_self c w)))
          (star_cls_of_forall w (fun x hx => hall x (List.mem_cons_of_mem c hx)))

theorem matches_lit_iff {c : Char} {w : List Char} : Matches (lit c) w ↔ w = [c] := by
  unfold lit
  rw [matches_cls_iff]
  constructor
  · rintro ⟨d, rfl, hd⟩
    have : d.toNat = c.toNat := by simpa using hd
    rw [Char.ext (UInt32.ext this)]
  · rintro rfl
    exact ⟨c, rfl, by simp⟩

end Regex

theorem notSpaceNorAt_iff (c : Char) : notSpaceNorAt c = true ↔ NonSpaceNonAt c := by
  unfold notSpaceNorAt NonSpaceNonAt
  have hat : c.toNat = 64 ↔ c = '@' := by
    constructor
    · intro h
      exact Char.ext (UInt32.ext h)
    · rintro rfl
      rfl
  simp only [Bool.not_eq_true', Bool.or_eq_false_iff, beq_eq_false_iff_ne, ne_eq, hat]

/-- The pattern of `isValidEmail` accepts exactly the strings of `EmailPattern`. -/
theorem emailRegex_test_iff (s : List Char) : emailRegex.test s = true ↔ EmailPattern s := by
  rw [Regex.test_iff]
  unfold emailRegex EmailPattern
  simp only [Regex.matches_cat_iff, Regex.matches_plus_cls_iff, Regex.matches_lit_iff,
    notSpaceNorAt_iff]
  constructor
  · rintro ⟨a, _, rfl, ⟨ha, ha2⟩, _, _, rfl, rfl, b, _, rfl, ⟨hb, hb2⟩, _, c, rfl, rfl, hc, hc2⟩
    exact ⟨a, b, c, by simp, ha, hb, hc, ha2, hb2, hc2⟩
  · rintro ⟨a, b, c, rfl, ha, hb, hc, ha2, hb2, hc2⟩
    exact ⟨a, _, rfl, ⟨ha, ha2⟩, _, _, rfl, rfl, b, _, rfl, ⟨hb, hb2⟩, _, c, rfl, rfl, hc, hc2⟩

/-! ## Basic facts about the handlers -/

theorem truthy_undefined : truthy .undefined = false := rfl

theorem truthy_str (s : String) : truthy (.str s) = true ↔ s ≠ "" := by
  simp [truthy]

theorem toStr_str (s : String) : toStr (.str s) = .normal s := by
  simp [toStr]

theorem isValidEmail_str (s : String) :
    isValidEmail (.str s) = .normal (emailRegex.test s.toList) := by
  simp [isValidEmail, toStr_str]

theorem missingRequired_eq_false (b : WaitlistBody) :
    missingRequired b = false ↔
      truthy b.company = true ∧ truthy b.firstName = true ∧ truthy b.lastName = true ∧
        truthy b.email = true ∧ truthy b.phone = true := by
  simp [missingRequired, and_assoc]

theorem missingRequired_eq_true (b : WaitlistBody) :
    missingRequired b = true ↔
      truthy b.company = false ∨ truthy b.firstName = false ∨ truthy b.lastName = false ∨
        truthy b.email = false ∨ truthy b.phone = false := by
  simp [missingRequired, or_assoc]

/-! ### The file after a write -/

theorem roundTripElems_append : ∀ xs ys : List Value,
    roundTripElems (xs ++ ys) = roundTripElems xs ++ roundTripElems ys
  | [], ys => by simp [roundTripElems]
  | x :: xs, ys => by simp [roundTripElems, roundTripElems_append xs ys]

theorem roundTripElems_length : ∀ xs : List Value, (roundTripElems xs).length = xs.length
  | [] => by simp [roundTripElems]
  | x :: xs => by simp [roundTripElems, roundTripElems_length xs]

theorem roundTripProps_strings : ∀ props : List (String × Value),
    props.all (fun kv => kv.2.isString) = true → roundTripProps props = props
  | [], _ => by simp [roundTripProps]
  | (k, v) :: rest, h => by
      simp only [List.all_cons, Bool.and_eq_true] at h
      cases v with
      | str t => simp [roundTripProps, Value.isUndefined, jsonRoundTrip, roundTripProps_strings rest h.2]
      | _ => simp [Value.isString] at h

theorem jsonRoundTrip_record (x : Value) (h : x.isRecord = true) :
    x.isUndefined = false ∧ jsonRoundTrip x = x := by
  cases x with
  | obj props =>
      refine ⟨rfl, ?_⟩
      simp only [jsonRoundTrip]
      rw [roundTripProps_strings props h]
  | _ => simp [Value.isRecord] at h

theorem roundTripElems_records : ∀ xs : List Value,
    (∀ x ∈ xs, x.isRecord = true) → roundTripElems xs = xs
  | [], _ => by simp [roundTripElems]
  | x :: xs, h => by
      obtain ⟨h1, h2⟩ := jsonRoundTrip_record x (h x (List.mem_cons_self x xs))
      simp only [roundTripElems, h1, h2]
      rw [roundTripElems_records xs (fun y hy => h y (List.mem_cons_of_mem x hy))]
      simp

/-- A property that is a string keeps its value when its object goes through the
file. -/
theorem lookup_roundTripProps_str (key t : String) : ∀ props : List (String × Value),
    lookup props key = .str t → lookup (roundTripProps props) key = .str t
  | [], h => by simp [lookup] at h
  | (k, v) :: rest, h => by
      by_cases hk : (k == key) = true
      · simp only [lookup, hk, if_true] at h
        subst h
        simp [roundTripProps, Value.isUndefined, jsonRoundTrip, lookup, hk]
      · simp only [lookup, hk] at h
        have ih := lookup_roundTripProps_str key t rest h
        by_cases hv : v.isUndefined = true
        · simp only [roundTripProps, hv, if_true]
          exact ih
        · simp only [roundTripProps, hv, lookup, hk]
          exact ih

theorem roundTripElems_eq_map : ∀ xs : List Value, roundTripElems xs = xs.map storedAgain
  | [] => by simp [roundTripElems]
  | x :: xs => by simp [roundTripElems, storedAgain, roundTripElems_eq_map xs]

theorem prop_storedAgain_str (x : Value) (key t : String) (h : x.prop key = .str t) :
    (storedAgain x).prop key = .str t := by
  cases x with
  | obj props =>
      simp only [storedAgain, Value.isUndefined, jsonRoundTrip, Value.prop]
      exact lookup_roundTripProps_str key t props h
  | _ => simp [Value.prop] at h

/-! ### The waitlist handler, case by case -/

theorem postWaitlist_missing (env : Env) (b : WaitlistBody) (file : FileContent)
    (h : missingRequired b = true) :
    postWaitlist env b file =
      ⟨errorResponse 400 "All required fields must be filled.", file, []⟩ := by
  simp [postWaitlist, h]

theorem postWaitlist_invalid (env : Env) (b : WaitlistBody) (file : FileContent)
    (hreq : missingRequired b = false) (h : isValidEmail b.email = .normal false) :
    postWaitlist env b file = ⟨errorResponse 400 "Invalid email address.", file, []⟩ := by
  simp [postWaitlist, hreq, h]

theorem postWaitlist_throw (env : Env) (b : WaitlistBody) (file : FileContent)
    (hreq : missingRequired b = false) (e : Thrown) (h : isValidEmail b.email = .throw e) :
    postWaitlist env b file = waitlistCatch file [] := by
  simp [postWaitlist, hreq, h]

theorem postWaitlist_accepted (env : Env) (b : WaitlistBody) (entries : List Value)
    (h : Accepted b) :
    postWaitlist env b (.parsed (.arr entries)) =
      waitlistMirrorAndRespond env.mirror (buildEntry env.now b)
        (.parsed (.arr (roundTripElems (entries ++ [buildEntry env.now b]))))
        [.readFile, .writeFile (.arr (entries ++ [buildEntry env.now b]))] := by
  simp [postWaitlist, h.1, h.2, jsonRoundTrip]

theorem waitlistMirrorAndRespond_file (m : Mirror) (entry : Value) (written : FileContent)
    (done : List Effect) : (waitlistMirrorAndRespond m entry written done).file = written := by
  cases m <;> rfl

theorem waitlistMirrorAndRespond_response (m : Mirror) (entry : Value) (written : FileContent)
    (done : List Effect) (h : m ≠ .throws) :
    (waitlistMirrorAndRespond m entry written done).response = successResponse := by
  cases m with
  | throws => exact absurd rfl h
  | _ => rfl

theorem postWaitlist_accepted_file (env : Env) (b : WaitlistBody) (entries : List Value)
    (h : Accepted b) :
    (postWaitlist env b (.parsed (.arr entries))).file =
      .parsed (.arr (roundTripElems entries ++ [storedAgain (buildEntry env.now b)])) := by
  rw [postWaitlist_accepted env b entries h, waitlistMirrorAndRespond_file,
    roundTripElems_append]
  simp [roundTripElems, storedAgain]

theorem postWaitlist_corrupt (env : Env) (b : WaitlistBody) (file : FileContent)
    (h : Accepted b) (hfile : ∀ entries, file ≠ .parsed (.arr entries)) :
    postWaitlist env b file = waitlistCatch file [.readFile] := by
  unfold postWaitlist
  simp only [h.1, h.2]
  cases file with
  | unparsable => simp
  | parsed v =>
      cases v with
      | arr xs => exact absurd rfl (hfile xs)
      | _ => simp

/-- Whatever the request, the handler leaves the file as it was, or the body is accepted,
the file held an array, and it now holds that array and the new entry as
`JSON.stringify` wrote them. -/
theorem postWaitlist_file (env : Env) (b : WaitlistBody) (file : FileContent) :
    (postWaitlist env b file).file = file ∨
      (Accepted b ∧ ∃ entries, file = .parsed (.arr entries) ∧
        (postWaitlist env b file).file =
          .parsed (.arr (roundTripElems entries ++ [storedAgain (buildEntry env.now b)]))) := by
  by_cases hreq : missingRequired b = true
  · left; rw [postWaitlist_missing env b file hreq]
  · have hreq' : missingRequired b = false := by simpa using hreq
    cases hv : isValidEmail b.email with
    | throw e => left; rw [postWaitlist_throw env b file hreq' e hv]; rfl
    | normal ok =>
        cases ok with
        | false => left; rw [postWaitlist_invalid env b file hreq' hv]
        | true =>
            have hacc : Accepted b := ⟨hreq', hv⟩
            by_cases hfile : ∃ entries, file = .parsed (.arr entries)
            · obtain ⟨entries, rfl⟩ := hfile
              right
              exact ⟨hacc, entries, rfl, postWaitlist_accepted_file env b entries hacc⟩
            · left
              rw [postWaitlist_corrupt env b file hacc (fun es h => hfile ⟨es, h⟩)]
              rfl

theorem postContact_rejected (env : Env) (b : ContactBody) (file : FileContent)
    (h : truthy b.email = false ∨ isValidEmail b.email = .normal false) :
    postContact env b file =
      ⟨errorResponse 400 "Please provide a valid email address.", file, []⟩ := by
  unfold postContact
  rcases h with h | h
  · simp [h]
  · simp only [h]
    split <;> rfl

theorem postContact_valid (env : Env) (b : ContactBody) (file : FileContent)
    (ht : truthy b.email = true) (hv : isValidEmail b.email = .normal true) :
    postContact env b file =
      if env.mailOk then
        ⟨successResponse, file, [.sendMail b.email] ++ mirrorContactEffects env.mirror b.email⟩
      else contactCatch file [.sendMail b.email] := by
  simp [postContact, ht, hv]

/-! ### Records of strings -/

theorem isString_iff (v : Value) : v.isString = true ↔ ∃ s, v = .str s := by
  cases v <;> simp [Value.isString]

theorem isStringOrAbsent_iff (v : Value) :
    v.isStringOrAbsent = true ↔ v = .undefined ∨ ∃ s, v = .str s := by
  cases v <;> simp [Value.isStringOrAbsent]

theorem isString_prop_storedAgain (x : Value) (key : String)
    (h : (x.prop key).isString = true) : ((storedAgain x).prop key).isString = true := by
  obtain ⟨t, ht⟩ := (isString_iff _).mp h
  rw [prop_storedAgain_str x key t ht]
  rfl

theorem isValidEmail_empty : isValidEmail (.str "") = .normal false := by decide

theorem stringEntryValid_entryValid (e : Value) (h : StringEntryValid e) : EntryValid e := by
  obtain ⟨c, f, l, m, p, h1, h2, h3, h4, h5, hc, hf, hl, hm, hp, hv⟩ := h
  refine ⟨?_, ?_, ?_, ?_, ?_, ?_⟩
  · rw [h1]; exact (truthy_str c).mpr hc
  · rw [h2]; exact (truthy_str f).mpr hf
  · rw [h3]; exact (truthy_str l).mpr hl
  · rw [h4]; exact (truthy_str m).mpr hm
  · rw [h5]; exact (truthy_str p).mpr hp
  · rw [h4]; exact hv

theorem stringEntryValid_storedAgain (e : Value) (h : StringEntryValid e) :
    StringEntryValid (storedAgain e) := by
  obtain ⟨c, f, l, m, p, h1, h2, h3, h4, h5, hrest⟩ := h
  exact ⟨c, f, l, m, p, prop_storedAgain_str e _ c h1, prop_storedAgain_str e _ f h2,
    prop_storedAgain_str e _ l h3, prop_storedAgain_str e _ m h4,
    prop_storedAgain_str e _ p h5, hrest⟩

theorem truthy_stringOrAbsent (v : Value) (h : v.isStringOrAbsent = true)
    (ht : truthy v = true) : ∃ s, v = .str s ∧ s ≠ "" := by
  rcases (isStringOrAbsent_iff v).mp h with h | ⟨s, h⟩
  · rw [h] at ht
    cases ht
  · rw [h] at ht
    exact ⟨s, h, (truthy_str s).mp ht⟩

theorem buildEntry_stringEntryValid (now : String) (b : WaitlistBody) (h : Accepted b)
    (hs : b.required.all Value.isStringOrAbsent = true) :
    StringEntryValid (buildEntry now b) := by
  obtain ⟨t1, t2, t3, t4, t5⟩ := (missingRequired_eq_false b).mp h.1
  simp only [WaitlistBody.required, List.all_cons, List.all_nil, Bool.and_true,
    Bool.and_eq_true] at hs
  obtain ⟨s1, s2, s3, s4, s5⟩ := hs
  obtain ⟨c, hc, hc'⟩ := truthy_stringOrAbsent _ s1 t1
  obtain ⟨f, hf, hf'⟩ := truthy_stringOrAbsent _ s2 t2
  obtain ⟨l, hl, hl'⟩ := truthy_stringOrAbsent _ s3 t3
  obtain ⟨m, hm, hm'⟩ := truthy_stringOrAbsent _ s4 t4
  obtain ⟨p, hp, hp'⟩ := truthy_stringOrAbsent _ s5 t5
  refine ⟨c, f, l, m, p, hc, hf, hl, hm, hp, hc', hf', hl', hm', hp', ?_⟩
  rw [← hm]
  exact h.2

theorem runWaitlist_stringEntryValid : ∀ (reqs : List (Env × WaitlistBody))
    (entries : List Value),
    (∀ r ∈ reqs, r.2.required.all Value.isStringOrAbsent = true) →
    (∀ e ∈ entries, StringEntryValid e) →
      ∃ entries', runWaitlist (.parsed (.arr entries)) reqs = .parsed (.arr entries') ∧
        ∀ e ∈ entries', StringEntryValid e
  | [], entries, _, h => ⟨entries, rfl, h⟩
  | (env, b) :: rest, entries, hr, h => by
      have hrest : ∀ r ∈ rest, r.2.required.all Value.isStringOrAbsent = true :=
        fun r hmem => hr r (List.mem_cons_of_mem _ hmem)
      rcases postWaitlist_file env b (.parsed (.arr entries)) with hsame | ⟨hacc, es, hes, hnew⟩
      · simp only [runWaitlist, hsame]
        exact runWaitlist_stringEntryValid rest entries hrest h
      · simp only [runWaitlist, hnew]
        cases hes
        apply runWaitlist_stringEntryValid rest _ hrest
        intro e he
        rcases List.mem_append.mp he with he | he
        · rw [roundTripElems_eq_map] at he
          obtain ⟨x, hx, rfl⟩ := List.mem_map.mp he
          exact stringEntryValid_storedAgain x (h x hx)
        · rw [List.mem_singleton.mp he]
          exact stringEntryValid_storedAgain _
            (buildEntry_stringEntryValid env.now b hacc (hr (env, b) (List.mem_cons_self _ _)))

theorem carries_storedAgain (x : Value) (b : WaitlistBody) (h : Carries x b) :
    Carries (storedAgain x) b := by
  intro hst
  obtain ⟨hreq, hn1, hn2⟩ := h hst
  simp only [WaitlistBody.stringTyped, WaitlistBody.required, List.all_cons, List.all_nil,
    Bool.and_true, Bool.and_eq_true] at hst
  obtain ⟨⟨s1, s2, s3, s4, s5⟩, s6⟩ := hst
  obtain ⟨c, hc⟩ := (isString_iff _).mp s1
  obtain ⟨f, hf⟩ := (isString_iff _).mp s2
  obtain ⟨l, hl⟩ := (isString_iff _).mp s3
  obtain ⟨m, hm⟩ := (isString_iff _).mp s4
  obtain ⟨p, hp⟩ := (isString_iff _).mp s5
  simp only [requiredProps, WaitlistBody.required, List.cons.injEq, and_true] at hreq
  obtain ⟨r1, r2, r3, r4, r5⟩ := hreq
  refine ⟨?_, ?_, ?_⟩
  · simp only [requiredProps, WaitlistBody.required, List.cons.injEq, and_true]
    refine ⟨?_, ?_, ?_, ?_, ?_⟩
    · rw [hc]; exact prop_storedAgain_str x _ c (by rw [r1, hc])
    · rw [hf]; exact prop_storedAgain_str x _ f (by rw [r2, hf])
    · rw [hl]; exact prop_storedAgain_str x _ l (by rw [r3, hl])
    · rw [hm]; exact prop_storedAgain_str x _ m (by rw [r4, hm])
    · rw [hp]; exact prop_storedAgain_str x _ p (by rw [r5, hp])
  · intro hu
    exact prop_storedAgain_str x _ "" (hn1 hu)
  · intro t ht
    exact prop_storedAgain_str x _ t (hn2 t ht)

theorem carries_buildEntry (now : String) (b : WaitlistBody) : Carries (buildEntry now b) b := by
  intro _
  refine ⟨rfl, ?_, ?_⟩
  · intro hu
    show notesOrEmpty b.notes = .str ""
    rw [hu]
    rfl
  · intro t ht
    show notesOrEmpty b.notes = .str t
    rw [ht]
    by_cases he : t = ""
    · simp [notesOrEmpty, truthy, he]
    · simp [notesOrEmpty, truthy, he]

theorem runWaitlist_carries : ∀ (reqs : List (Env × WaitlistBody)) (entries : List Value)
    (olds : List (Env × WaitlistBody)),
    (∀ r ∈ reqs, Accepted r.2) →
    List.Forall₂ (fun rec r => Carries rec r.2) entries olds →
      ∃ records, runWaitlist (.parsed (.arr entries)) reqs = .parsed (.arr records) ∧
        List.Forall₂ (fun rec r => Carries rec r.2) records (olds ++ reqs)
  | [], entries, olds, _, h => ⟨entries, rfl, by simpa using h⟩
  | (env, b) :: rest, entries, olds, hacc, h => by
      have hb : Accepted b := hacc (env, b) (List.mem_cons_self _ _)
      simp only [runWaitlist, postWaitlist_accepted_file env b entries hb]
      have hnext : List.Forall₂ (fun rec r => Carries rec r.2)
          (roundTripElems entries ++ [storedAgain (buildEntry env.now b)])
          (olds ++ [(env, b)]) := by
        apply List.rel_append
        · rw [roundTripElems_eq_map, List.forall₂_map_left_iff]
          have himp : ∀ (x : Value) (r : Env × WaitlistBody),
              Carries x r.2 → Carries (storedAgain x) r.2 :=
            fun x r hx => carries_storedAgain x r.2 hx
          exact List.Forall₂.imp himp h
        · exact List.Forall₂.cons (carries_storedAgain _ _ (carries_buildEntry env.now b))
            List.Forall₂.nil
      obtain ⟨records, hrun, hrec⟩ := runWaitlist_carries rest _ (olds ++ [(env, b)])
        (fun r hr => hacc r (List.mem_cons_of_mem _ hr)) hnext
      exact ⟨records, hrun, by simpa using hrec⟩

/-! ## The claims -/

/-- C1 as stated fails: the JSON body
`{"company":1e999,"firstName":"Jo","lastName":"Lee","email":"jo@acme.com","phone":"555-1234"}`
has all five required fields present and non-empty (`1e999` parses to `Infinity`, which
passes `!company`) and an email that `isValidEmail` accepts; the response is 200, but
the entry that ends up in the store has `null` as its company, not the submitted one,
because `JSON.stringify` writes `Infinity` as `null`. -/
theorem waitlist_overflow_company_stored_as_null :
    truthy overflowCompanyBody.company = true ∧
      truthy overflowCompanyBody.firstName = true ∧
      truthy overflowCompanyBody.lastName = true ∧
      truthy overflowCompanyBody.email = true ∧
      truthy overflowCompanyBody.phone = true ∧
      isValidEmail overflowCompanyBody.email = .normal true ∧
      (postWaitlist noMirrorEnv overflowCompanyBody (.parsed (.arr []))).response.status = 200 ∧
      (postWaitlist noMirrorEnv overflowCompanyBody (.parsed (.arr []))).file =
        .parsed (.arr [.obj [("company", .null), ("firstName", .str "Jo"),
          ("lastName", .str "Lee"), ("email", .str "jo@acme.com"),
          ("phone", .str "555-1234"), ("notes", .str ""),
          ("timestamp", .str "2024-05-01T12:00:00.000Z")]]) := by
  refine ⟨rfl, rfl, rfl, rfl, rfl, by decide, rfl, rfl⟩

/-- C1, amended: for every prior store content that decodes to a sequence of records of
strings (the empty sequence included) and every waitlist body whose company, firstName,
lastName, email and phone are non-empty strings, whose email is accepted by
`isValidEmail` and whose notes is a string or absent, `POST /api/waitlist` leaves the
store equal to the prior sequence followed by exactly one new entry; that entry carries
the submitted company, firstName, lastName, email and phone, and its notes are the
submitted notes, or the empty string when notes is absent; the response is
200 `{success: true}` unless the call of Firestore's `add` throws synchronously. -/
theorem waitlist_string_submission_appends_one_entry (env : Env) (prior : List Value)
    (company firstName lastName email phone : String) (notes : Option String)
    (hprior : ∀ x ∈ prior, x.isRecord = true)
    (hcompany : company ≠ "") (hfirst : firstName ≠ "") (hlast : lastName ≠ "")
    (hphone : phone ≠ "") (hvalid : isValidEmail (.str email) = .normal true) :
    ∃ entry : Value,
      (postWaitlist env (stringBody company firstName lastName email phone notes)
          (.parsed (.arr prior))).file = .parsed (.arr (prior ++ [entry])) ∧
      entry.prop "company" = .str company ∧ entry.prop "firstName" = .str firstName ∧
      entry.prop "lastName" = .str lastName ∧ entry.prop "email" = .str email ∧
      entry.prop "phone" = .str phone ∧
      entry.prop "notes" = .str (notes.getD "") ∧
      (env.mirror ≠ .throws →
        (postWaitlist env (stringBody company firstName lastName email phone notes)
            (.parsed (.arr prior))).response = ⟨200, .obj [("success", .bool true)]⟩) := by
  have hemail : email ≠ "" := by
    intro h
    rw [h, isValidEmail_empty] at hvalid
    cases hvalid
  have hacc : Accepted (stringBody company firstName lastName email phone notes) :=
    ⟨(missingRequired_eq_false _).mpr
      ⟨(truthy_str _).mpr hcompany, (truthy_str _).mpr hfirst, (truthy_str _).mpr hlast,
        (truthy_str _).mpr hemail, (truthy_str _).mpr hphone⟩, hvalid⟩
  refine ⟨storedAgain (buildEntry env.now
    (stringBody company firstName lastName email phone notes)), ?_,
    prop_storedAgain_str _ _ _ rfl, prop_storedAgain_str _ _ _ rfl,
    prop_storedAgain_str _ _ _ rfl, prop_storedAgain_str _ _ _ rfl,
    prop_storedAgain_str _ _ _ rfl, prop_storedAgain_str _ _ _ ?_, ?_⟩
  · rw [postWaitlist_accepted_file env _ prior hacc, roundTripElems_records prior hprior]
  · show notesOrEmpty (stringBody company firstName lastName email phone notes).notes = _
    cases notes with
    | none => rfl
    | some t =>
        by_cases he : t = ""
        · simp [notesOrEmpty, stringBody, truthy, he]
        · simp [notesOrEmpty, stringBody, truthy, he]
  · intro hm
    rw [postWaitlist_accepted env _ prior hacc]
    exact waitlistMirrorAndRespond_response _ _ _ _ hm

/-- Witness for the amended C1: the example of the specification with a note, against a
store that already holds one record, the Firestore write being rejected. -/
theorem waitlist_string_submission_appends_one_entry_witness :
    ∃ entry : Value,
      (postWaitlist sampleEnv
          (stringBody "Acme" "Jo" "Lee" "jo@acme.com" "555-1234" (some "call after 5pm"))
          (.parsed (.arr [.obj [("company", .str "Initech")]]))).file =
        .parsed (.arr ([.obj [("company", .str "Initech")]] ++ [entry])) ∧
      entry.prop "company" = .str "Acme" ∧ entry.prop "firstName" = .str "Jo" ∧
      entry.prop "lastName" = .str "Lee" ∧ entry.prop "email" = .str "jo@acme.com" ∧
      entry.prop "phone" = .str "555-1234" ∧
      entry.prop "notes" = .str ((some "call after 5pm").getD "") ∧
      (sampleEnv.mirror ≠ .throws →
        (postWaitlist sampleEnv
            (stringBody "Acme" "Jo" "Lee" "jo@acme.com" "555-1234" (some "call after 5pm"))
            (.parsed (.arr [.obj [("company", .str "Initech")]]))).response =
          ⟨200, .obj [("success", .bool true)]⟩) :=
  waitlist_string_submission_appends_one_entry sampleEnv [.obj [("company", .str "Initech")]]
    "Acme" "Jo" "Lee" "jo@acme.com" "555-1234" (some "call after 5pm")
    (by decide) (by decide) (by decide) (by decide) (by decide) (by decide)

/-- C2: for every waitlist body in which at least one of company, firstName, lastName,
email, phone is absent or empty (fails the handler's `!field` test: `undefined` and
`""` do), and for every store content, `POST /api/waitlist` answers 400 with an error
reason and does nothing else: the store content is unchanged and no effect at all (no
file write, no mirror write) is performed, whatever the email looks like. -/
theorem waitlist_missing_field_rejected (env : Env) (b : WaitlistBody) (file : FileContent)
    (h : truthy b.company = false ∨ truthy b.firstName = false ∨ truthy b.lastName = false ∨
      truthy b.email = false ∨ truthy b.phone = false) :
    (postWaitlist env b file).response.status = 400 ∧
      (postWaitlist env b file).response.body =
        .obj [("error", .str "All required fields must be filled.")] ∧
      (postWaitlist env b file).file = file ∧
      (postWaitlist env b file).trace = [] := by
  rw [postWaitlist_missing env b file ((missingRequired_eq_true b).mpr h)]
  exact ⟨rfl, rfl, rfl, rfl⟩

/-- Witness for C2: an empty phone number, against the empty store. -/
theorem waitlist_missing_field_rejected_witness :
    (postWaitlist sampleEnv noPhoneBody initialFile).response.status = 400 ∧
      (postWaitlist sampleEnv noPhoneBody initialFile).response.body =
        .obj [("error", .str "All required fields must be filled.")] ∧
      (postWaitlist sampleEnv noPhoneBody initialFile).file = initialFile ∧
      (postWaitlist sampleEnv noPhoneBody initialFile).trace = [] :=
  waitlist_missing_field_rejected sampleEnv noPhoneBody initialFile
    (Or.inr (Or.inr (Or.inr (Or.inr (by decide)))))

/-- C3: for every email string that does not match the stated pattern, both flows
reject before any side effect: `POST /api/waitlist` answers 400, leaves the store
unchanged and performs no effect (no file write, no mirror write); `POST /api/contact`
answers 400 `{error: "Please provide a valid email address."}` and performs no effect
(no mail sent, no mirror write). -/
theorem invalid_email_rejected_before_any_effect (env : Env) (b : WaitlistBody)
    (file : FileContent) (s : String) (hb : b.email = .str s)
    (hpat : ¬ EmailPattern s.toList) :
    ((postWaitlist env b file).response.status = 400 ∧
      (postWaitlist env b file).file = file ∧
      (postWaitlist env b file).trace = []) ∧
    ((postContact env ⟨.str s⟩ file).response.status = 400 ∧
      (postContact env ⟨.str s⟩ file).response.body =
        .obj [("error", .str "Please provide a valid email address.")] ∧
      (postContact env ⟨.str s⟩ file).file = file ∧
      (postContact env ⟨.str s⟩ file).trace = []) := by
  have hv : isValidEmail (.str s) = .normal false := by
    rw [isValidEmail_str]
    cases ht : emailRegex.test s.toList with
    | false => rfl
    | true => exact absurd ((emailRegex_test_iff s.toList).mp ht) hpat
  constructor
  · by_cases hreq : missingRequired b = true
    · rw [postWaitlist_missing env b file hreq]
      exact ⟨rfl, rfl, rfl⟩
    · have hreq' : missingRequired b = false := by simpa using hreq
      rw [postWaitlist_invalid env b file hreq' (by rw [hb]; exact hv)]
      exact ⟨rfl, rfl, rfl⟩
  · rw [postContact_rejected env ⟨.str s⟩ file (Or.inr hv)]
    exact ⟨rfl, rfl, rfl, rfl⟩

/-- Witness for C3: the email `not-an-email` of the specification's example. -/
theorem invalid_email_rejected_before_any_effect_witness :
    ((postWaitlist sampleEnv badEmailBody initialFile).response.status = 400 ∧
      (postWaitlist sampleEnv badEmailBody initialFile).file = initialFile ∧
      (postWaitlist sampleEnv badEmailBody initialFile).trace = []) ∧
    ((postContact sampleEnv ⟨.str "not-an-email"⟩ initialFile).response.status = 400 ∧
      (postContact sampleEnv ⟨.str "not-an-email"⟩ initialFile).response.body =
        .obj [("error", .str "Please provide a valid email address.")] ∧
      (postContact sampleEnv ⟨.str "not-an-email"⟩ initialFile).file = initialFile ∧
      (postContact sampleEnv ⟨.str "not-an-email"⟩ initialFile).trace = []) :=
  invalid_email_rejected_before_any_effect sampleEnv badEmailBody initialFile "not-an-email"
    rfl (fun h => absurd ((emailRegex_test_iff _).mpr h) (by decide))

/-- C4: for every string `s`, `isValidEmail(s)` returns, and it returns `true` if and
only if `s` in its entirety consists of one or more non-space non-@ characters, then
`@`, then one or more non-space non-@ characters, then `.`, then one or more non-space
non-@ characters (space characters being those of the class `\s`). -/
theorem isValidEmail_iff_pattern (s : String) :
    (isValidEmail (.str s) = .normal true ↔ EmailPattern s.toList) ∧
      (isValidEmail (.str s) = .normal false ↔ ¬ EmailPattern s.toList) := by
  rw [isValidEmail_str, ← emailRegex_test_iff]
  cases emailRegex.test s.toList <;> simp

/-- C5 as stated fails: starting from the empty store, the single request
`{"company":"Acme","firstName":"Jo","lastName":"Lee","email":"jo@acme.com","phone":-1e999}`
is accepted (`-1e999` parses to `-Infinity`, which is truthy), and the store then holds
a record whose phone is `null`, a record that fails validation. -/
theorem store_holds_invalid_record_after_overflow_phone :
    runWaitlist initialFile [(noMirrorEnv, overflowPhoneBody)] =
        .parsed (.arr [.obj [("company", .str "Acme"), ("firstName", .str "Jo"),
          ("lastName", .str "Lee"), ("email", .str "jo@acme.com"),
          ("phone", .null), ("notes", .str ""),
          ("timestamp", .str "2024-05-01T12:00:00.000Z")]]) ∧
      ¬ EntryValid (.obj [("company", .str "Acme"), ("firstName", .str "Jo"),
          ("lastName", .str "Lee"), ("email", .str "jo@acme.com"),
          ("phone", .null), ("notes", .str ""),
          ("timestamp", .str "2024-05-01T12:00:00.000Z")]) := by
  refine ⟨rfl, ?_⟩
  intro h
  have hphone := h.2.2.2.2.1
  revert hphone
  decide

/-- C5, amended: starting from the empty store created at startup, after any finite
sequence of `POST /api/waitlist` requests whose company, firstName, lastName, email and
phone are strings or absent (accepted or rejected, in any order, notes being any JSON
value) the store is still a sequence, and every entry in it has non-empty company,
firstName, lastName, email and phone and an email accepted by `isValidEmail`. -/
theorem store_entries_valid_after_string_requests (reqs : List (Env × WaitlistBody))
    (h : ∀ r ∈ reqs, r.2.required.all Value.isStringOrAbsent = true) :
    ∃ entries : List Value,
      runWaitlist initialFile reqs = .parsed (.arr entries) ∧ ∀ e ∈ entries, EntryValid e := by
  obtain ⟨entries, hrun, hvalid⟩ :=
    runWaitlist_stringEntryValid reqs [] h (fun e he => by cases he)
  exact ⟨entries, hrun, fun e he => stringEntryValid_entryValid e (hvalid e he)⟩

/-- Witness for the amended C5: a rejected request (empty phone), then an accepted one
whose notes the Firestore client refuses, then a rejected one (malformed email). -/
theorem store_entries_valid_after_string_requests_witness :
    ∃ entries : List Value,
      runWaitlist initialFile
          [(sampleEnv, noPhoneBody), (refusingMirrorEnv, emptyKeyNotesBody),
            (sampleEnv, badEmailBody)] = .parsed (.arr entries) ∧
        ∀ e ∈ entries, EntryValid e :=
  store_entries_valid_after_string_requests
    [(sampleEnv, noPhoneBody), (refusingMirrorEnv, emptyKeyNotesBody), (sampleEnv, badEmailBody)]
    (by decide)

/-- C6, evaluated at the failing input: the body
`{"company":"Acme","firstName":"Jo","lastName":"Lee","email":"jo@acme.com","phone":"555-1234","notes":{"":1}}`
against the empty store.  With the mirror disabled the response is 200
`{success: true}`.  With the mirror enabled and `add` throwing synchronously, the record
is written to the file all the same, and then the outer `catch` answers 500: the failure
of the mirror changes the response of a valid submission.  The contact handler, whose
mirror call has a `try`/`catch` of its own, still answers 200 in that environment. -/
theorem waitlist_mirror_throw_changes_response :
    (postWaitlist noMirrorEnv emptyKeyNotesBody initialFile).response =
        ⟨200, .obj [("success", .bool true)]⟩ ∧
      (postWaitlist refusingMirrorEnv emptyKeyNotesBody initialFile).response =
        ⟨500, .obj [("error", .str "Server error. Please try again.")]⟩ ∧
      (postWaitlist refusingMirrorEnv emptyKeyNotesBody initialFile).file =
        (postWaitlist noMirrorEnv emptyKeyNotesBody initialFile).file ∧
      (postWaitlist refusingMirrorEnv emptyKeyNotesBody initialFile).file =
        .parsed (.arr [.obj [("company", .str "Acme"), ("firstName", .str "Jo"),
          ("lastName", .str "Lee"), ("email", .str "jo@acme.com"),
          ("phone", .str "555-1234"), ("notes", .obj [("", .num (.finite false 1 1))]),
          ("timestamp", .str "2024-05-01T12:00:00.000Z")]]) ∧
      (postWaitlist refusingMirrorEnv emptyKeyNotesBody initialFile).trace =
        [.readFile,
          .writeFile (.arr [buildEntry "2024-05-01T12:00:00.000Z" emptyKeyNotesBody]),
          .mirrorWaitlist (buildEntry "2024-05-01T12:00:00.000Z" emptyKeyNotesBody),
          .consoleError "Waitlist error:"] ∧
      (postContact refusingMirrorEnv ⟨.str "jo@acme.com"⟩ initialFile).response =
        ⟨200, .obj [("success", .bool true)]⟩ := by
  exact ⟨rfl, rfl, rfl, rfl, rfl, rfl⟩

/-- C7: for every accepted waitlist body, if the store content cannot be decoded as a
sequence (reading or parsing throws, or the parsed value is not an array), the handler
answers 500 with an error message, leaves the store content exactly as it was, and its
only effects are one read of the file and one log line: no file write, no mirror write,
no second attempt. -/
theorem corrupt_store_is_server_error (env : Env) (b : WaitlistBody) (file : FileContent)
    (hb : Accepted b) (hfile : ∀ entries, file ≠ .parsed (.arr entries)) :
    (postWaitlist env b file).response.status = 500 ∧
      (postWaitlist env b file).response.body =
        .obj [("error", .str "Server error. Please try again.")] ∧
      (postWaitlist env b file).file = file ∧
      (postWaitlist env b file).trace = [.readFile, .consoleError "Waitlist error:"] := by
  rw [postWaitlist_corrupt env b file hb hfile]
  exact ⟨rfl, rfl, rfl, rfl⟩

/-- Witness for C7: the example body against a file whose content is the JSON object
`{}`. -/
theorem corrupt_store_is_server_error_witness :
    (postWaitlist sampleEnv acmeBody (.parsed (.obj []))).response.status = 500 ∧
      (postWaitlist sampleEnv acmeBody (.parsed (.obj []))).response.body =
        .obj [("error", .str "Server error. Please try again.")] ∧
      (postWaitlist sampleEnv acmeBody (.parsed (.obj []))).file = .parsed (.obj []) ∧
      (postWaitlist sampleEnv acmeBody (.parsed (.obj []))).trace =
        [.readFile, .consoleError "Waitlist error:"] :=
  corrupt_store_is_server_error sampleEnv acmeBody (.parsed (.obj []))
    ⟨by decide, by decide⟩ (fun _ h => by cases h)

/-- C8: for every contact request whose email is non-empty and accepted by
`isValidEmail`, the handler attempts exactly one mail send, addressed to that email, and
it is the first effect, so it precedes any mirror write.  If the send fails the response
is 500 with an error message and no mirror write is issued.  If the send succeeds the
response is 200 `{success: true}` and exactly one mirror write for that email is issued
when the mirror is enabled, none when it is disabled. -/
theorem contact_sends_mail_before_mirror (env : Env) (c : ContactBody) (file : FileContent)
    (hc1 : truthy c.email = true) (hc2 : isValidEmail c.email = .normal true) :
    (postContact env c file).trace.filter Effect.isMailSend = [.sendMail c.email] ∧
      (postContact env c file).trace.head? = some (.sendMail c.email) ∧
      (env.mailOk = false →
        (postContact env c file).response.status = 500 ∧
        (postContact env c file).response.body =
          .obj [("error", .str "Failed to send email. Please try again.")] ∧
        (postContact env c file).trace.filter Effect.isMirrorWrite = []) ∧
      (env.mailOk = true →
        (postContact env c file).response = ⟨200, .obj [("success", .bool true)]⟩ ∧
        (env.mirror ≠ .disabled →
          (postContact env c file).trace.filter Effect.isMirrorWrite =
            [.mirrorContact c.email]) ∧
        (env.mirror = .disabled →
          (postContact env c file).trace.filter Effect.isMirrorWrite = [])) := by
  rw [postContact_valid env c file hc1 hc2]
  cases env.mailOk <;> cases env.mirror <;>
    simp [contactCatch, mirrorContactEffects, Effect.isMailSend, Effect.isMirrorWrite,
      errorResponse, successResponse]

/-- Witness for C8: a valid address while the mail relay is down. -/
theorem contact_sends_mail_before_mirror_witness :
    (postContact mailDownEnv ⟨.str "jo@acme.com"⟩ initialFile).trace.filter Effect.isMailSend =
        [.sendMail (.str "jo@acme.com")] ∧
      (postContact mailDownEnv ⟨.str "jo@acme.com"⟩ initialFile).trace.head? =
        some (.sendMail (.str "jo@acme.com")) ∧
      (mailDownEnv.mailOk = false →
        (postContact mailDownEnv ⟨.str "jo@acme.com"⟩ initialFile).response.status = 500 ∧
        (postContact mailDownEnv ⟨.str "jo@acme.com"⟩ initialFile).response.body =
          .obj [("error", .str "Failed to send email. Please try again.")] ∧
        (postContact mailDownEnv ⟨.str "jo@acme.com"⟩ initialFile).trace.filter
          Effect.isMirrorWrite = []) ∧
      (mailDownEnv.mailOk = true →
        (postContact mailDownEnv ⟨.str "jo@acme.com"⟩ initialFile).response =
          ⟨200, .obj [("success", .bool true)]⟩ ∧
        (mailDownEnv.mirror ≠ .disabled →
          (postContact mailDownEnv ⟨.str "jo@acme.com"⟩ initialFile).trace.filter
            Effect.isMirrorWrite = [.mirrorContact (.str "jo@acme.com")]) ∧
        (mailDownEnv.mirror = .disabled →
          (postContact mailDownEnv ⟨.str "jo@acme.com"⟩ initialFile).trace.filter
            Effect.isMirrorWrite = [])) :=
  contact_sends_mail_before_mirror mailDownEnv ⟨.str "jo@acme.com"⟩ initialFile
    (by decide) (by decide)

/-- C9 as stated fails: the single accepted submission
`{"company":"Acme","firstName":"Jo","lastName":1e999,"email":"jo@acme.com","phone":"555-1234"}`
against the empty store leaves one record, but that record does not carry the fields of
its submission: its lastName is `null`, the submitted one is the number `Infinity`. -/
theorem recorded_submission_loses_overflow_last_name :
    Accepted overflowLastNameBody ∧
      runWaitlist initialFile [(noMirrorEnv, overflowLastNameBody)] =
        .parsed (.arr [.obj [("company", .str "Acme"), ("firstName", .str "Jo"),
          ("lastName", .null), ("email", .str "jo@acme.com"),
          ("phone", .str "555-1234"), ("notes", .str ""),
          ("timestamp", .str "2024-05-01T12:00:00.000Z")]]) ∧
      overflowLastNameBody.lastName = .num (.infinity false) := by
  exact ⟨⟨by decide, by decide⟩, rfl, rfl⟩

/-- C9, amended: no deduplication and no lost entries.  For every list of accepted
waitlist submissions (duplicates allowed), handled one after the other against the
initially empty store, the store ends up holding exactly as many records as there were
submissions, in submission order; and each record whose submission has strings for
company, firstName, lastName, email and phone and a string or nothing for notes carries
the fields of that submission: the five required fields as submitted, and for notes the
submitted string, or the empty string when notes was absent. -/
theorem sequential_submissions_all_recorded (reqs : List (Env × WaitlistBody))
    (h : ∀ r ∈ reqs, Accepted r.2) :
    ∃ records : List Value,
      runWaitlist initialFile reqs = .parsed (.arr records) ∧
      records.length = reqs.length ∧
      List.Forall₂
        (fun record r =>
          r.2.stringTyped = true →
            requiredProps record = r.2.required ∧
              (r.2.notes = .undefined → record.prop "notes" = .str "") ∧
              (∀ s, r.2.notes = .str s → record.prop "notes" = .str s))
        records reqs := by
  obtain ⟨records, hrun, hrec⟩ := runWaitlist_carries reqs [] [] h List.Forall₂.nil
  simp only [List.nil_append] at hrec
  exact ⟨records, hrun, hrec.length_eq, hrec⟩

/-- Witness for the amended C9: the same fields, notes included, submitted twice give
two records. -/
theorem sequential_submissions_all_recorded_witness :
    ∃ records : List Value,
      runWaitlist initialFile [(sampleEnv, acmeNotesBody), (sampleEnv, acmeNotesBody)] =
        .parsed (.arr records) ∧
      records.length = [(sampleEnv, acmeNotesBody), (sampleEnv, acmeNotesBody)].length ∧
      List.Forall₂
        (fun record r =>
          r.2.stringTyped = true →
            requiredProps record = r.2.required ∧
              (r.2.notes = .undefined → record.prop "notes" = .str "") ∧
              (∀ s, r.2.notes = .str s → record.prop "notes" = .str s))
        records [(sampleEnv, acmeNotesBody), (sampleEnv, acmeNotesBody)] :=
  sequential_submissions_all_recorded [(sampleEnv, acmeNotesBody), (sampleEnv, acmeNotesBody)]
    (fun r hr => by
      simp only [List.mem_cons, List.mem_singleton, List.not_mem_nil, or_false, or_self] at hr
      rw [hr]
      exact ⟨by decide, by decide⟩)

/-- C10 as stated fails: the JSON body
`{"company":"Acme","firstName":"Jo","lastName":"Lee","email":["jo@acme.com"],"phone":"555-1234"}`
is accepted (the array prints as `jo@acme.com`, which `isValidEmail` accepts), the
response is 200, and the entry written to the store has an array, not a string, as its
email. -/
theorem waitlist_stores_non_string_email :
    (postWaitlist sampleEnv arrayEmailBody initialFile).response.status = 200 ∧
      (postWaitlist sampleEnv arrayEmailBody initialFile).file =
        .parsed (.arr [.obj [("company", .str "Acme"), ("firstName", .str "Jo"),
          ("lastName", .str "Lee"), ("email", .arr [.str "jo@acme.com"]),
          ("phone", .str "555-1234"), ("notes", .str ""),
          ("timestamp", .str "2024-05-01T12:00:00.000Z")]]) ∧
      (Value.arr [.str "jo@acme.com"]).isString = false := by
  exact ⟨rfl, rfl, rfl⟩

/-- C10, amended: for every JSON request body accepted by the handler whose company,
firstName, lastName, email and phone are strings and whose notes is a string or falsy
(absent, `null`, `false`, `0`), and every store content that decodes to a sequence, the
entry written to the store has string-valued company, firstName, lastName, email, phone
and notes. -/
theorem waitlist_string_body_gives_string_entry (env : Env) (b : WaitlistBody)
    (prior : List Value) (hb : Accepted b)
    (hreq : ∀ v ∈ b.required, v.isString = true)
    (hnotes : b.notes.isString = true ∨ truthy b.notes = false) :
    ∃ (stored : List Value) (entry : Value),
      (postWaitlist env b (.parsed (.arr prior))).file = .parsed (.arr (stored ++ [entry])) ∧
      stored.length = prior.length ∧
      (∀ v ∈ requiredProps entry, v.isString = true) ∧
      (entry.prop "notes").isString = true := by
  refine ⟨roundTripElems prior, storedAgain (buildEntry env.now b),
    postWaitlist_accepted_file env b prior hb, roundTripElems_length prior, ?_, ?_⟩
  · have h1 := hreq b.company (by simp [WaitlistBody.required])
    have h2 := hreq b.firstName (by simp [WaitlistBody.required])
    have h3 := hreq b.lastName (by simp [WaitlistBody.required])
    have h4 := hreq b.email (by simp [WaitlistBody.required])
    have h5 := hreq b.phone (by simp [WaitlistBody.required])
    intro v hv
    simp only [requiredProps, List.mem_cons, List.mem_singleton, List.not_mem_nil,
      or_false] at hv
    rcases hv with rfl | rfl | rfl | rfl | rfl
    · exact isString_prop_storedAgain _ _ h1
    · exact isString_prop_storedAgain _ _ h2
    · exact isString_prop_storedAgain _ _ h3
    · exact isString_prop_storedAgain _ _ h4
    · exact isString_prop_storedAgain _ _ h5
  · apply isString_prop_storedAgain
    show (notesOrEmpty b.notes).isString = true
    unfold notesOrEmpty
    rcases hnotes with hn | hn
    · split
      · exact hn
      · rfl
    · simp [hn, Value.isString]

/-- Witness for the amended C10: the example body with a note against a store holding
one record. -/
theorem waitlist_string_body_gives_string_entry_witness :
    ∃ (stored : List Value) (entry : Value),
      (postWaitlist sampleEnv acmeNotesBody
          (.parsed (.arr [.obj [("company", .str "Initech")]]))).file =
        .parsed (.arr (stored ++ [entry])) ∧
      stored.length = [Value.obj [("company", .str "Initech")]].length ∧
      (∀ v ∈ requiredProps entry, v.isString = true) ∧
      (entry.prop "notes").isString = true :=
  waitlist_string_body_gives_string_entry sampleEnv acmeNotesBody
    [.obj [("company", .str "Initech")]] ⟨by decide, by decide⟩ (by decide) (Or.inl rfl)

end Illumibot
